import Mathlib

/-!
Verification development for the StoryMagic backend (bedtime-story generator).

The TypeScript sources are shallowly embedded: strings become `List Char`,
JS numbers become `Nat`/`Int`/`ℚ` (with exactness arguments recorded where the
source computes in floating point), thrown exceptions become `Except`, remote
model calls become explicit oracle parameters, and the SQLite store becomes an
explicit record of row lists with insert operations that may fail on
primary-key or foreign-key violations.  Human-readable message strings that the
code only ever builds and carries along (issue / recommendation texts) are
embedded as tagged values, which is injective in everything the code puts into
them.
-/

namespace StoryMagic

/-- Strings are modelled as lists of characters (JS strings; the sources use
only BMP text, where JS `.length` agrees with the character count). -/
abbrev Str := List Char

/-- JS `\s` whitespace class (the members that matter for ASCII text). -/
def isWs (c : Char) : Bool :=
  c = ' ' || c = '\t' || c = '\n' || c = '\r' || c = '\x0b' || c = '\x0c'

/-- Character-wise lowercasing: JS `String.prototype.toLowerCase` on ASCII. -/
def toLowerStr (s : Str) : Str := s.map Char.toLower

/-- JS `String.prototype.trim`: strip whitespace from both ends. -/
def trimStr (s : Str) : Str :=
  ((s.dropWhile isWs).reverse.dropWhile isWs).reverse

/-- JS `String.prototype.includes(pat)`: `pat` occurs as a contiguous
substring of `s`. -/
def containsSub (pat : Str) : Str → Bool
  | [] => pat.isEmpty
  | c :: rest => pat.isPrefixOf (c :: rest) || containsSub pat rest

/-- Core of JS `String.prototype.replace(/pat/g, rep)` for a literal
(non-empty) pattern: leftmost, non-overlapping, global replacement.  The
`Nat` argument counts characters of a just-matched pattern that remain to be
skipped, which keeps the recursion structural on the string. -/
def replaceAllAux (pat rep : Str) : Str → Nat → Str
  | [], _ => []
  | _ :: rest, Nat.succ k => replaceAllAux pat rep rest k
  | c :: rest, 0 =>
    if pat.isPrefixOf (c :: rest) && !pat.isEmpty then
      rep ++ replaceAllAux pat rep rest (pat.length - 1)
    else
      c :: replaceAllAux pat rep rest 0

/-- JS `s.replace(/pat/g, rep)` for a literal pattern `pat`. -/
def replaceAll (pat rep s : Str) : Str := replaceAllAux pat rep s 0

/-- Number of maximal whitespace runs of `s`, counted at each run start
(a whitespace character not preceded by one); the `Bool` records whether the
previous character was whitespace. -/
def wsRunsAux (prevWs : Bool) : Str → Nat
  | [] => 0
  | c :: rest =>
    let n := wsRunsAux (isWs c) rest
    if isWs c && !prevWs then n + 1 else n

/-- JS `s.split(/\s+/).length`: one more than the number of maximal
whitespace runs (each run separates two chunks; leading or trailing runs
produce empty chunks, and `"".split` yields `[""]`). -/
def wordCount (s : Str) : Nat := 1 + wsRunsAux false s

/-- Digits of a decimal numeral to a number (JS `parseInt` on an all-digit
string; the sources only feed it small numerals, far below 2^53). -/
def parseNatDigits (ds : Str) : Nat :=
  ds.foldl (fun n c => n * 10 + (c.toNat - '0'.toNat)) 0

/-- Decidable equality for `Except` results (used to evaluate concrete
scenarios). -/
instance {ε α : Type} [DecidableEq ε] [DecidableEq α] : DecidableEq (Except ε α) :=
  fun x y =>
    match x, y with
    | .ok a, .ok b => decidable_of_iff (a = b) (by simp)
    | .error a, .error b => decidable_of_iff (a = b) (by simp)
    | .ok _, .error _ => isFalse (by simp)
    | .error _, .ok _ => isFalse (by simp)

end StoryMagic

namespace StoryMagic

/-! ## Placeholder substitution (`src/backend/src/utils/placeholderUtils.ts`) -/

/-- `ChildProfile` (`types/index.ts` as used throughout the backend).  The two
optional fields are embedded as plain strings with `[]` for absent, because
the source guards them with JS truthiness (`if (profile.bestFriend)`), which
treats `undefined` and `""` identically. -/
structure ChildProfile where
  name : Str
  age : Nat
  favoriteAnimal : Str
  favoriteColor : Str
  bestFriend : Str
  currentInterest : Str
deriving DecidableEq

def childNameTok : Str := "[CHILD_NAME]".toList
def childAgeTok : Str := "[CHILD_AGE]".toList
def favAnimalTok : Str := "[FAVORITE_ANIMAL]".toList
def favColorTok : Str := "[FAVORITE_COLOR]".toList
def bestFriendTok : Str := "[BEST_FRIEND]".toList
def curInterestTok : Str := "[CURRENT_INTEREST]".toList

/-- `PlaceholderUtils.replacePlaceholders`: sequential global replacement of
the six profile tokens; the best-friend and current-interest replacements run
only when the profile field is truthy (non-empty). -/
def replacePlaceholders (content : Str) (p : ChildProfile) : Str :=
  let r1 := replaceAll childNameTok p.name content
  let r2 := replaceAll childAgeTok (toString p.age).toList r1
  let r3 := replaceAll favAnimalTok p.favoriteAnimal r2
  let r4 := replaceAll favColorTok p.favoriteColor r3
  let r5 := if p.bestFriend.isEmpty then r4 else replaceAll bestFriendTok p.bestFriend r4
  if p.currentInterest.isEmpty then r5 else replaceAll curInterestTok p.currentInterest r5

/-- `PlaceholderUtils.hasPlaceholders`: the regex alternation test of the six
tokens, i.e. whether any token occurs as a substring. -/
def hasPlaceholders (content : Str) : Bool :=
  containsSub childNameTok content || containsSub childAgeTok content ||
  containsSub favAnimalTok content || containsSub favColorTok content ||
  containsSub bestFriendTok content || containsSub curInterestTok content

end StoryMagic

namespace StoryMagic

/-! ## Model orchestrator (`src/backend/src/config/openai.ts`, `OpenRouterClient`) -/

/-- `AIModel` records of `AI_MODELS`. -/
structure AIModel where
  id : Str
  name : Str
  costPerToken : ℚ
  isFree : Bool
deriving DecidableEq

def modelPrimary : AIModel :=
  { id := "arli-ai/qwq-32b-rp-r1".toList, name := "ArliAI QwQ 32B RpR v1".toList,
    costPerToken := 0, isFree := true }

def modelSecondary : AIModel :=
  { id := "thedrummer/rocinante-12b".toList, name := "TheDrummer/Rocinante-12B".toList,
    costPerToken := 5 / 10000000, isFree := false }

def modelTertiary : AIModel :=
  { id := "mistralai/mistral-nemo-12b-instruct".toList, name := "Mistral Nemo 12B Celeste".toList,
    costPerToken := 12 / 10000000, isFree := false }

/-- Outcome of one remote chat-completion call
(`this.client.chat.completions.create`): the call throws, or it completes and
`completion.choices[0]?.message?.content` is the given optional string. -/
inductive CallOutcome where
  | fail (e : Str)
  | content (c : Option Str)
deriving DecidableEq

/-- The remote environment for one `generateCompletion` request: what each
model would answer.  (The prompt is fixed for the duration of a request, so it
is baked into the oracle.) -/
abbrev Orc := AIModel → CallOutcome

/-- Errors thrown out of the orchestrator. -/
inductive GenError where
  /-- the remote call itself threw -/
  | callFailed (e : Str)
  /-- `'No content generated from <model>'`: falsy `content` -/
  | noContent (m : AIModel)
  /-- `'All AI models are currently unavailable'` -/
  | allUnavailable
deriving DecidableEq

/-- `OpenRouterClient.tryModel`: run the remote call; a thrown error
propagates, a falsy `content` (missing or empty string) is an error, and a
successful result is trimmed. -/
def tryModel (orc : Orc) (m : AIModel) : Except GenError Str :=
  match orc m with
  | .fail e => .error (.callFailed e)
  | .content none => .error (.noContent m)
  | .content (some c) => if c.isEmpty then .error (.noContent m) else .ok (trimStr c)

/-- `OpenRouterClient.generateCompletion`.  Besides the result we record the
sequence of models handed to `tryModel` (observable in the source through the
`this.currentModel = model` assignment at the top of `tryModel`). -/
def generateCompletion (orc : Orc) (fallbackToPaid : Bool) :
    Except GenError Str × List AIModel :=
  match tryModel orc modelPrimary with
  | .ok s => (.ok s, [modelPrimary])
  | .error e =>
    if !fallbackToPaid then (.error e, [modelPrimary])
    else
      match tryModel orc modelSecondary with
      | .ok s => (.ok s, [modelPrimary, modelSecondary])
      | .error _ =>
        match tryModel orc modelTertiary with
        | .ok s => (.ok s, [modelPrimary, modelSecondary, modelTertiary])
        | .error _ =>
          (.error .allUnavailable, [modelPrimary, modelSecondary, modelTertiary])

end StoryMagic

namespace StoryMagic

/-! ## Safety validator
(`src/backend/src/utils/validation.ts`, `src/backend/src/services/contentSafetyService.ts`) -/

/-- Issue / error message strings, embedded as tagged values carrying exactly
the data the source interpolates into them. -/
inductive Issue where
  /-- `Contains inappropriate words: ...` (dangerous-word scan) -/
  | dangerousWords (found : List Str)
  /-- `Content contains potentially inappropriate words: ...`
  (`validateContentForAge`) -/
  | inappropriateForAge (found : List Str)
  /-- `Content too short for age ...` -/
  | tooShortForAge (wc minW : Nat)
  /-- `Content too long for age ...` -/
  | tooLongForAge (wc maxW : Nat)
  /-- `Story is too short (minimum 100 words)` -/
  | tooShort100
  /-- `Story is too long (maximum 800 words)` -/
  | tooLong800
  /-- one concern line from the AI safety response -/
  | aiConcern (line : Str)
  /-- `Safety check failed - unable to validate content` -/
  | checkFailed
deriving DecidableEq

/-- Recommendation strings, as tagged values. -/
inductive Rec where
  /-- `Review and revise content` -/
  | reviewRevise
  /-- `AI safety validation unavailable` -/
  | aiUnavailable
  /-- `Please try generating the story again` -/
  | tryAgain
  /-- one recommendation line from the AI safety response -/
  | aiRec (line : Str)
deriving DecidableEq

/-- `SafetyCheckResult` (`types/index.ts` as used by the safety service). -/
structure SafetyCheckResult where
  isSafe : Bool
  issues : List Issue
  score : Nat
  recommendations : Option (List Rec)
deriving DecidableEq

/-- The `dangerousWords` block list of
`ContentSafetyService.performBasicSafetyChecks`. -/
def dangerousWords : List Str :=
  ["kill", "die", "dead", "death", "murder", "fight", "battle", "war",
   "weapon", "gun", "knife", "blood", "hurt", "pain", "injury",
   "monster", "ghost", "zombie", "vampire", "witch", "curse", "haunted",
   "scary", "terrifying", "nightmare", "fear", "afraid", "terror",
   "hate", "evil", "bad", "mean", "cruel", "angry", "rage",
   "alcohol", "drugs", "smoking", "sex", "naked", "bathroom"].map String.toList

/-- The `inappropriateWords` list of `validateContentForAge`
(`utils/validation.ts`). -/
def inappropriateWords : List Str :=
  ["violence", "death", "scary", "monster", "ghost", "witch",
   "curse", "poison", "weapon", "fight", "battle", "war"].map String.toList

/-- `validateContentForAge` (`utils/validation.ts`): its `errors` list
(`isValid` is just emptiness of this list). -/
def validateContentForAge (content : Str) (age : Nat) : List Issue :=
  let lower := toLowerStr content
  let found := inappropriateWords.filter (fun w => containsSub w lower)
  let wc := wordCount content
  (if found.isEmpty then [] else [.inappropriateForAge found]) ++
    (if wc < 20 * age then [.tooShortForAge wc (20 * age)] else []) ++
      (if wc > 80 * age then [.tooLongForAge wc (80 * age)] else [])

/-- `ContentSafetyService.performBasicSafetyChecks` (the deterministic pass).
The score arithmetic (`100 - 20·dangerous - 15·ageErrors`, clamped to
`[0, 100]`) is computed in `Int` and then converted, matching the JS integer
arithmetic exactly. -/
def performBasicSafetyChecks (content : Str) (age : Nat) : SafetyCheckResult :=
  let lower := toLowerStr content
  let foundDangerous := dangerousWords.filter (fun w => containsSub w lower)
  let ageErrors := validateContentForAge content age
  let wc := wordCount content
  let issues : List Issue :=
    (if foundDangerous.isEmpty then [] else [.dangerousWords foundDangerous]) ++
      ageErrors ++
        (if wc < 100 then [.tooShort100] else []) ++
          (if wc > 800 then [.tooLong800] else [])
  let score : Int :=
    max 0 (min 100 (100 - 20 * (foundDangerous.length : Int) - 15 * (ageErrors.length : Int)))
  { isSafe := issues.isEmpty, issues := issues, score := score.toNat,
    recommendations := if issues.isEmpty then none else some [.reviewRevise] }

/-- Leftmost-match scan: try the position matcher `m` at every suffix of the
input, left to right (the way a regex engine searches for a match start). -/
def scanFor {α : Type} (m : Str → Option α) : Str → Option α
  | [] => m []
  | c :: rest =>
    match m (c :: rest) with
    | some a => some a
    | none => scanFor m rest

/-- Case-insensitive literal prefix test (`pat` is given in lowercase). -/
def ciPrefix (pat s : Str) : Bool := pat.isPrefixOf (toLowerStr s)

/-- Position matcher for `/Safety Score:\s*(\d+)/i`: the literal label, greedy
whitespace, then at least one digit (whitespace and digits are disjoint, so
the greedy `\s*` never needs backtracking). -/
def matchSafetyScoreAt (s : Str) : Option Nat :=
  if ciPrefix "safety score:".toList s then
    let ds := ((s.drop 13).dropWhile isWs).takeWhile Char.isDigit
    if ds.isEmpty then none else some (parseNatDigits ds)
  else none

/-- Capture until the first `"\n\n"` (exclusive), or to the end if there is
none — the `(.*?)(?:\n\n|$)` tail of the concerns/recommendations regexes
under the `s` flag: the lazy group stops at the first double newline and
otherwise runs to the end via `$`. -/
def takeUntilDoubleNl : Str → Str
  | [] => []
  | '\n' :: '\n' :: _ => []
  | c :: rest => c :: takeUntilDoubleNl rest

/-- Position matcher for `/<label>:\s*(.*?)(?:\n\n|$)/is` (`label` lowercase,
`labelLen` its length): after the label the greedy `\s*` never backtracks
because the `$` alternative lets the rest of the pattern always succeed. -/
def sectionCaptureAt (label : Str) (labelLen : Nat) (s : Str) : Option Str :=
  if ciPrefix label s then
    some (takeUntilDoubleNl ((s.drop labelLen).dropWhile isWs))
  else none

/-- `line.replace(/^[-•*]\s*/, '')`: strip one leading bullet character and
the whitespace after it (anchored, first match only). -/
def stripBullet (l : Str) : Str :=
  match l with
  | [] => []
  | c :: rest => if c = '-' || c = '•' || c = '*' then rest.dropWhile isWs else c :: rest

/-- `ContentSafetyService.parseAISafetyResponse`. -/
def parseAISafetyResponse (response : Str) : SafetyCheckResult :=
  let score : Nat :=
    match scanFor matchSafetyScoreAt response with
    | some n => min 100 n
    | none => 50
  let issues : List Issue :=
    match scanFor (sectionCaptureAt "concerns:".toList 9) response with
    | some cap =>
      if cap.isEmpty then []
      else
        let concerns := trimStr cap
        if toLowerStr concerns = "none".toList then []
        else
          ((concerns.splitOn '\n').filter (fun l => !(trimStr l).isEmpty)).map
            (fun l => Issue.aiConcern (trimStr (stripBullet l)))
    | none => []
  let recs : List Rec :=
    match scanFor (sectionCaptureAt "recommendations:".toList 16) response with
    | some cap =>
      if cap.isEmpty then []
      else
        let rs := trimStr cap
        if toLowerStr rs = "none needed".toList then []
        else
          ((rs.splitOn '\n').filter (fun l => !(trimStr l).isEmpty)).map
            (fun l => Rec.aiRec (trimStr (stripBullet l)))
    | none => []
  { isSafe := decide (80 ≤ score) && issues.isEmpty,
    issues := issues, score := score,
    recommendations := if recs.isEmpty then none else some recs }

/-- The result `performAISafetyCheck` substitutes when anything in the
model-based pass throws (its `catch` block): *allow content if AI check
fails*, with a conservative score of 70. -/
def aiFallbackResult : SafetyCheckResult :=
  { isSafe := true, issues := [], score := 70, recommendations := some [.aiUnavailable] }

/-- `ContentSafetyService.performAISafetyCheck`: ask the orchestrator with
fallback disabled (`fallbackToPaid: false`), parse the answer; a thrown error
(all attempted tiers failed) is caught and replaced by `aiFallbackResult`.
The oracle stands for the environment answering the safety prompt built from
the content and age by `PromptBuilder.buildSafetyCheckPrompt`. -/
def performAISafetyCheck (orc : Orc) : SafetyCheckResult :=
  match (generateCompletion orc false).1 with
  | .ok resp => parseAISafetyResponse resp
  | .error _ => aiFallbackResult

/-- `ContentSafetyService.combineSafetyResults`.  The source computes
`Math.round(basic*0.4 + ai*0.6)` in binary floating point; for natural-number
scores (well below 2^50) that equals rounding the exact value
`(2·basic + 3·ai)/5` half-up, because the exact value's fractional part is a
multiple of 1/5 (never 1/2) and the floating-point error is far too small to
cross a rounding boundary.  Rounding half-up of `(4b + 6a)/10` is the natural
division `(4b + 6a + 5)/10`, which is what we write. -/
def combineSafetyResults (basicResult aiResult : SafetyCheckResult) : SafetyCheckResult :=
  let combinedScore : Nat := (4 * basicResult.score + 6 * aiResult.score + 5) / 10
  { isSafe := basicResult.isSafe && aiResult.isSafe && decide (80 ≤ combinedScore),
    issues := basicResult.issues ++ aiResult.issues,
    score := combinedScore,
    recommendations :=
      let allRecs := basicResult.recommendations.getD [] ++ aiResult.recommendations.getD []
      if allRecs.isEmpty then none else some allRecs }

/-- `ContentSafetyService.checkContentSafety`: the deterministic pass, the
model-based pass, and their combination.  (The surrounding `try`/`catch` of
the source is unreachable here: both passes are total — the model pass
catches its own failures.) -/
def checkContentSafety (safetyOrc : Orc) (content : Str) (profile : ChildProfile) :
    SafetyCheckResult :=
  combineSafetyResults (performBasicSafetyChecks content profile.age)
    (performAISafetyCheck safetyOrc)

end StoryMagic

namespace StoryMagic

/-! ## Story generation service (`src/backend/src/services/storyGenerationService.ts`) -/

/-- `'high' | 'medium' | 'calming'` (the energy levels the parser accepts). -/
inductive EnergyLevel where
  | high
  | medium
  | calming
deriving DecidableEq

/-- `StoryOption` (`types/index.ts`). -/
structure StoryOption where
  id : Str
  title : Str
  description : Str
  estimatedDuration : Nat
  energyLevel : EnergyLevel
  contentTags : List Str
  preview : Str
deriving DecidableEq

/-- Match length of `/\d+\.\s+/` anchored at the start of `s` (greedy digits,
a dot, greedy whitespace; neither quantifier ever backtracks because the
neighbouring character classes are disjoint). -/
def numDotWsLen (s : Str) : Option Nat :=
  let ds := s.takeWhile Char.isDigit
  if ds.isEmpty then none
  else
    match s.drop ds.length with
    | '.' :: rest2 =>
      let ws := rest2.takeWhile isWs
      if ws.isEmpty then none else some (ds.length + 1 + ws.length)
    | _ => none

/-- Match length of `/Story \d+:/i` anchored at the start of `s`. -/
def storyNumLen (s : Str) : Option Nat :=
  if ciPrefix "story ".toList s then
    let ds := (s.drop 6).takeWhile Char.isDigit
    if ds.isEmpty then none
    else
      match (s.drop 6).drop ds.length with
      | ':' :: _ => some (6 + ds.length + 1)
      | _ => none
  else none

/-- Match length of the split pattern `/\d+\.\s+|Story \d+:/i` at the start
of `s` (first alternative tried first). -/
def optionMarkerLen (s : Str) : Option Nat :=
  match numDotWsLen s with
  | some n => some n
  | none => storyNumLen s

/-- JS `String.prototype.split(re)` for a pattern with no capture groups and
no empty matches: scan left to right; each leftmost match ends the current
chunk and is skipped.  The `Nat` argument counts matched characters still to
skip, keeping the recursion structural. -/
def splitMatchesAux (mlen : Str → Option Nat) : Str → Nat → List Str
  | [], _ => [[]]
  | _ :: rest, Nat.succ k => splitMatchesAux mlen rest k
  | c :: rest, 0 =>
    match mlen (c :: rest) with
    | some (Nat.succ n) => [] :: splitMatchesAux mlen rest n
    | _ =>
      match splitMatchesAux mlen rest 0 with
      | chunk :: more => (c :: chunk) :: more
      | [] => [[c]]

/-- JS `s.split(re)` (no capture groups, no empty matches). -/
def splitMatches (mlen : Str → Option Nat) (s : Str) : List Str :=
  splitMatchesAux mlen s 0

def isQuoteCh (c : Char) : Bool := c = '"' || c = '“' || c = '”'

/-- Whole-line match of `/^["“”]?([^"“”\n]+)["“”]?$/` returning the capture:
the line with at most one leading and one trailing quote stripped, provided
what remains is non-empty and quote-free. -/
def titleLineCapture (line : Str) : Option Str :=
  let l1 :=
    match line with
    | c :: rest => if isQuoteCh c then rest else c :: rest
    | [] => []
  let l2 :=
    match l1.getLast? with
    | some c => if isQuoteCh c then l1.dropLast else l1
    | none => l1
  if l2.isEmpty || l2.any isQuoteCh then none else some l2

/-- Title extraction of `parseStoryOptionBlock`: the `/m` flag makes the
anchored pattern try each line in order; the first matching line's capture is
trimmed, and `'Untitled Story'` is the default. -/
def titleOf (block : Str) : Str :=
  match (block.splitOn '\n').filterMap titleLineCapture with
  | t :: _ => trimStr t
  | [] => "Untitled Story".toList

/-- Terminator test of the description/tags regexes at a position:
`\n` followed by `\n` or by one of the given labels (case-insensitively). -/
def nlTermAt (labels : List Str) (s : Str) : Bool :=
  match s with
  | '\n' :: rest =>
    (match rest with
     | '\n' :: _ => true
     | _ => false) ||
      labels.any (fun l => ciPrefix l rest)
  | _ => false

/-- Index of the first terminator occurrence. -/
def findTermIdx (labels : List Str) : Str → Option Nat
  | [] => none
  | c :: rest =>
    if nlTermAt labels (c :: rest) then some 0 else (findTermIdx labels rest).map (· + 1)

/-- The `\s*(.*?)(?:\n\n|\n(?:<labels>))` tail of the description/tags
regexes, applied to the text after the label.  The greedy `\s*` prefers the
maximal whitespace run and backtracks only if no terminator lies at or beyond
its end; the lazy capture then stops at the first terminator.  Concretely:
if a terminator starts at or after the run's end, the capture runs from the
run's end to the first such terminator; otherwise, if a terminator starts
inside the run, the capture is empty; otherwise the whole pattern fails at
this position. -/
def labeledLazyCapture (labels : List Str) (afterLabel : Str) : Option Str :=
  let maxW := (afterLabel.takeWhile isWs).length
  let rest2 := afterLabel.drop maxW
  match findTermIdx labels rest2 with
  | some t => some (rest2.take t)
  | none => if (findTermIdx labels afterLabel).isSome then some [] else none

def descTermLabels : List Str :=
  ["duration", "energy", "tags", "story options"].map String.toList

def tagsTermLabels : List Str :=
  ["duration", "energy", "story options"].map String.toList

/-- Position matcher for
`/(?:Description|Summary):\s*(.*?)(?:\n\n|\n(?:Duration|Energy|Tags|Story Options))/is`. -/
def descMatcherAt (s : Str) : Option Str :=
  if ciPrefix "description:".toList s then labeledLazyCapture descTermLabels (s.drop 12)
  else if ciPrefix "summary:".toList s then labeledLazyCapture descTermLabels (s.drop 8)
  else none

def defaultDescription : Str := "A wonderful adventure awaits!".toList

/-- The description fallback `block.split('\n')[1] || 'A wonderful adventure
awaits!'` (an absent or empty second line is falsy). -/
def descFallback (block : Str) : Str :=
  match block.splitOn '\n' with
  | _ :: l2 :: _ => if l2.isEmpty then defaultDescription else l2
  | _ => defaultDescription

/-- Description extraction of `parseStoryOptionBlock` (an empty capture is
falsy in the source's `descriptionMatch && descriptionMatch[1]` guard, so it
also falls back). -/
def descriptionOf (block : Str) : Str :=
  match scanFor descMatcherAt block with
  | some cap => if cap.isEmpty then descFallback block else trimStr cap
  | none => descFallback block

/-- Position matcher for `/Duration:\s*(\d+)(?:\s*-\s*(\d+))?\s*minutes?/i`,
returning the first captured number.  The optional range group is tried
greedily and dropped if the remainder then fails to reach `minute`. -/
def durationMatcherAt (s : Str) : Option Nat :=
  if ciPrefix "duration:".toList s then
    let r1 := (s.drop 9).dropWhile isWs
    let ds := r1.takeWhile Char.isDigit
    if ds.isEmpty then none
    else
      let r2 := r1.drop ds.length
      let afterGroup : Option Str :=
        match r2.dropWhile isWs with
        | '-' :: rest =>
          let ds2 := (rest.dropWhile isWs).takeWhile Char.isDigit
          if ds2.isEmpty then none else some ((rest.dropWhile isWs).drop ds2.length)
        | _ => none
      let minuteFrom : Str → Bool := fun r => ciPrefix "minute".toList (r.dropWhile isWs)
      if (match afterGroup with
          | some r3 => minuteFrom r3
          | none => false) ||
          minuteFrom r2 then
        some (parseNatDigits ds)
      else none
  else none

/-- The alternation `(high|medium|calming)` at a position (case-insensitive;
first letters are distinct, so order is immaterial). -/
def energyWordAt (s : Str) : Option EnergyLevel :=
  if ciPrefix "high".toList s then some .high
  else if ciPrefix "medium".toList s then some .medium
  else if ciPrefix "calming".toList s then some .calming
  else none

/-- Position matcher for `/Energy(?:\s+Level)?:\s*(high|medium|calming)/i`
(the optional ` Level` part is tried first and dropped on failure). -/
def energyMatcherAt (s : Str) : Option EnergyLevel :=
  if ciPrefix "energy".toList s then
    let r0 := s.drop 6
    let tryColon : Str → Option EnergyLevel := fun r =>
      match r with
      | ':' :: rest => energyWordAt (rest.dropWhile isWs)
      | _ => none
    let afterLevel : Option Str :=
      let ws := r0.takeWhile isWs
      if ws.isEmpty then none
      else if ciPrefix "level".toList (r0.drop ws.length) then
        some ((r0.drop ws.length).drop 5)
      else none
    match afterLevel with
    | some r1 =>
      match tryColon r1 with
      | some e => some e
      | none => tryColon r0
    | none => tryColon r0
  else none

/-- Position matcher for
`/(?:Tags|Content Tags):\s*(.*?)(?:\n\n|\n(?:Duration|Energy|Story Options))/is`. -/
def tagsMatcherAt (s : Str) : Option Str :=
  if ciPrefix "tags:".toList s then labeledLazyCapture tagsTermLabels (s.drop 5)
  else if ciPrefix "content tags:".toList s then labeledLazyCapture tagsTermLabels (s.drop 13)
  else none

/-- Tags extraction of `parseStoryOptionBlock` (split on commas, trim and
lowercase each; `['adventure']` when the regex fails or captures nothing). -/
def tagsOf (block : Str) : List Str :=
  match scanFor tagsMatcherAt block with
  | some cap =>
    if cap.isEmpty then ["adventure".toList]
    else (cap.splitOn ',').map (fun t => toLowerStr (trimStr t))
  | none => ["adventure".toList]

/-- `StoryGenerationService.parseStoryOptionBlock`.  The source wraps this in
`try`/`catch` and returns `null` on an exception, but every step is total, so
the block parser always produces an option (possibly from defaults). -/
def parseStoryOptionBlock (block : Str) : StoryOption :=
  let title := titleOf block
  let description := descriptionOf block
  let duration :=
    match scanFor durationMatcherAt block with
    | some d => d
    | none => 10
  let energyLevel :=
    match scanFor energyMatcherAt block with
    | some e => e
    | none => .medium
  { id := [], title := title, description := description,
    estimatedDuration := duration, energyLevel := energyLevel,
    contentTags := tagsOf block,
    preview :=
      description.take 100 ++ (if 100 < description.length then "...".toList else []) }

/-- Errors thrown by the story generation service. -/
inductive SvcError where
  /-- `'Failed to parse story options from AI response'` -/
  | parseFailed
  /-- `'Unable to generate story options at this time'` -/
  | unavailable
deriving DecidableEq

/-- `StoryGenerationService.parseStoryOptionsResponse`: split the response on
numbered or `Story N:` markers, keep blocks with non-blank trim, parse at
most `count` of them (ids `story_<i+1>_<Date.now()>`, with `now` standing for
the clock reading), and fail when none result. -/
def parseStoryOptionsResponse (now : Str) (response : Str) (count : Nat) :
    Except SvcError (List StoryOption) :=
  let storyBlocks := (splitMatches optionMarkerLen response).filter (fun b => !(trimStr b).isEmpty)
  let stories := (storyBlocks.take count).mapIdx (fun i b =>
    { parseStoryOptionBlock (trimStr b) with
        id := "story_".toList ++ (toString (i + 1)).toList ++ "_".toList ++ now })
  if stories.isEmpty then .error .parseFailed else .ok stories

/-- The per-option keep condition of `validateStoryOptions`: the basic
title/description minimums, then the lenient safety gate
(`isSafe || score >= 70`). -/
def optionPasses (safetyCk : Str → SafetyCheckResult) (st : StoryOption) : Bool :=
  decide (5 ≤ st.title.length) && decide (20 ≤ st.description.length) &&
    (let r := safetyCk st.description
     r.isSafe || decide (70 ≤ r.score))

/-- `StoryGenerationService.validateStoryOptions`.  Options failing the
checks are dropped (`continue`), not repaired; if everything was dropped the
source returns `stories.slice(0, 1)` — the first parsed option, unvalidated.
(The `catch`-and-keep branch around the safety call is unreachable because
`checkContentSafety` is total.) -/
def validateStoryOptions (safetyCk : Str → SafetyCheckResult) (stories : List StoryOption) :
    List StoryOption :=
  let validatedStories := stories.filter (optionPasses safetyCk)
  if validatedStories.isEmpty then stories.take 1 else validatedStories

/-- The environment of one `generateStoryOptions` request: the remote answers
for the options prompt, the remote answers for each safety prompt (keyed by
the content that `buildSafetyCheckPrompt` embeds), and the clock reading used
in generated ids. -/
structure GenEnv where
  genOrc : Orc
  safetyOrc : Str → Orc
  now : Str

/-- `StoryGenerationService.generateStoryOptions` (with the profile's safety
checks wired through `ContentSafetyService.checkContentSafety`).  Any error —
from the orchestrator or the parser — is caught and rethrown as the single
user-facing `'Unable to generate story options at this time'` error. -/
def generateStoryOptions (env : GenEnv) (profile : ChildProfile) (count : Nat) :
    Except SvcError (List StoryOption) :=
  match (generateCompletion env.genOrc true).1 with
  | .error _ => .error .unavailable
  | .ok aiResponse =>
    match parseStoryOptionsResponse env.now aiResponse count with
    | .error _ => .error .unavailable
    | .ok stories =>
      .ok (validateStoryOptions
        (fun d => checkContentSafety (env.safetyOrc d) d profile) stories)

end StoryMagic

namespace StoryMagic

/-! ## Branching story store
(`DatabaseService` in `src/backend/src/services/databaseService.ts`, schema in
`src/backend/src/config/database.ts`) -/

/-- A choice option handed to the store (`{ id, text, outcome }`). -/
structure ChoiceOption where
  id : Str
  text : Str
  outcome : Str
deriving DecidableEq

/-- A choice point handed to the store (`{ id, text, choices }`). -/
structure ChoicePoint where
  id : Str
  text : Str
  choices : List ChoiceOption
deriving DecidableEq

/-- `SavedStorySegment`, the store's input record for one segment. -/
structure SavedStorySegment where
  id : Str
  storyId : Str
  parentSegmentId : Option Str
  content : Str
  choiceText : Option Str
  choiceId : Option Str
  segmentOrder : Nat
  hasChoices : Bool
  choicePoints : List ChoicePoint
deriving DecidableEq

/-- The `x || null` normalisation the store applies to optional columns
(JS truthiness: an empty string also becomes `NULL`). -/
def normOpt : Option Str → Option Str
  | some s => if s.isEmpty then none else some s
  | none => none

/-- A row of the `stories` table (`content_tags` is stored as a JSON array of
strings; `JSON.stringify` is injective on those, so we keep the list). -/
structure StoryRow where
  id : Str
  userId : Str
  childProfileId : Str
  title : Str
  description : Str
  estimatedDuration : Nat
  energyLevel : EnergyLevel
  contentTags : List Str
  preview : Str
deriving DecidableEq

/-- A row of the `story_segments` table. -/
structure SegmentRow where
  id : Str
  storyId : Str
  parentSegmentId : Option Str
  content : Str
  choiceText : Option Str
  choiceId : Option Str
  segmentOrder : Nat
  hasChoices : Bool
deriving DecidableEq

/-- A row of the `choice_points` table. -/
structure ChoicePointRow where
  id : Str
  segmentId : Str
  choiceText : Str
  choiceOrder : Nat
deriving DecidableEq

/-- A row of the `choice_options` table. -/
structure ChoiceOptionRow where
  id : Str
  choicePointId : Str
  optionId : Str
  optionText : Str
  optionOrder : Nat
deriving DecidableEq

/-- The SQLite database state: the four tables of the story store. -/
structure DB where
  stories : List StoryRow
  segments : List SegmentRow
  choicePoints : List ChoicePointRow
  choiceOptions : List ChoiceOptionRow
deriving DecidableEq

/-- One prepared `INSERT` statement's bound row. -/
inductive Row where
  | story (r : StoryRow)
  | segment (r : SegmentRow)
  | choicePoint (r : ChoicePointRow)
  | choiceOption (r : ChoiceOptionRow)
deriving DecidableEq

inductive DBError where
  | pkViolation
  | fkViolation
deriving DecidableEq

/-- Executing one `INSERT` against the live database: it fails on a
primary-key conflict or (with `foreign_keys = ON`, which `initializeDatabase`
sets) on a dangling foreign key, and otherwise appends the row.  The schema
declares no other constraint on these tables — in particular *no* uniqueness
on `(parent_segment_id, choice_id)`. -/
def insertRow (db : DB) : Row → Except DBError DB
  | .story r =>
    if db.stories.any (fun s => s.id == r.id) then .error .pkViolation
    else .ok { db with stories := db.stories ++ [r] }
  | .segment r =>
    if db.segments.any (fun s => s.id == r.id) then .error .pkViolation
    else if !db.stories.any (fun s => s.id == r.storyId) then .error .fkViolation
    else if (match r.parentSegmentId with
             | some p => !db.segments.any (fun s => s.id == p)
             | none => false) then .error .fkViolation
    else .ok { db with segments := db.segments ++ [r] }
  | .choicePoint r =>
    if db.choicePoints.any (fun c => c.id == r.id) then .error .pkViolation
    else if !db.segments.any (fun s => s.id == r.segmentId) then .error .fkViolation
    else .ok { db with choicePoints := db.choicePoints ++ [r] }
  | .choiceOption r =>
    if db.choiceOptions.any (fun o => o.id == r.id) then .error .pkViolation
    else if !db.choicePoints.any (fun c => c.id == r.choicePointId) then .error .fkViolation
    else .ok { db with choiceOptions := db.choiceOptions ++ [r] }

/-- Executing a statement sequence against the live database, stopping at the
first failure; the returned state is the one reached so far (the partial
state a failure leaves behind *inside* an open transaction). -/
def runInsertsPartial (db : DB) : List Row → DB × Option DBError
  | [] => (db, none)
  | r :: rs =>
    match insertRow db r with
    | .ok db2 => runInsertsPartial db2 rs
    | .error e => (db, some e)

/-- better-sqlite3 `db.transaction(fn)()`: on success the reached state is
committed; on a thrown error the transaction is rolled back, discarding the
partial state, and the error is rethrown. -/
def runTransaction (db : DB) (rows : List Row) : DB × Except DBError Unit :=
  match runInsertsPartial db rows with
  | (db2, none) => (db2, .ok ())
  | (_, some e) => (db, .error e)

def storyRowOf (storyOption : StoryOption) (childProfileId : Str) : StoryRow :=
  { id := storyOption.id, userId := "default_user".toList, childProfileId := childProfileId,
    title := storyOption.title, description := storyOption.description,
    estimatedDuration := storyOption.estimatedDuration, energyLevel := storyOption.energyLevel,
    contentTags := storyOption.contentTags, preview := storyOption.preview }

def segmentRowOf (seg : SavedStorySegment) : SegmentRow :=
  { id := seg.id, storyId := seg.storyId, parentSegmentId := normOpt seg.parentSegmentId,
    content := seg.content, choiceText := normOpt seg.choiceText,
    choiceId := normOpt seg.choiceId, segmentOrder := seg.segmentOrder,
    hasChoices := seg.hasChoices }

def cpRowOf (segId : Str) (choiceIndex : Nat) (cp : ChoicePoint) : ChoicePointRow :=
  { id := cp.id, segmentId := segId, choiceText := cp.text, choiceOrder := choiceIndex }

def optRowOf (cpId : Str) (optionIndex : Nat) (o : ChoiceOption) : ChoiceOptionRow :=
  { id := cpId ++ "_option_".toList ++ o.id, choicePointId := cpId,
    optionId := o.id, optionText := o.text, optionOrder := optionIndex }

/-- The statements `DatabaseService.saveStory` issues for one choice point:
the choice-point insert, then one option insert per option (ids
`<choicePointId>_option_<optionId>`). -/
def cpRows (segId : Str) (choiceIndex : Nat) (cp : ChoicePoint) : List Row :=
  Row.choicePoint (cpRowOf segId choiceIndex cp) ::
    cp.choices.mapIdx (fun j o => Row.choiceOption (optRowOf cp.id j o))

/-- The statements `DatabaseService.saveStory` issues for one segment. -/
def segRows (seg : SavedStorySegment) : List Row :=
  Row.segment (segmentRowOf seg) ::
    (seg.choicePoints.mapIdx (fun i cp => cpRows seg.id i cp)).flatten

/-- The full statement sequence of `DatabaseService.saveStory`: the story row
first, then each segment with its choice points and options. -/
def saveStoryRows (storyOption : StoryOption) (childProfileId : Str)
    (segments : List SavedStorySegment) : List Row :=
  Row.story (storyRowOf storyOption childProfileId) :: (segments.map segRows).flatten

/-- `DatabaseService.saveStory`: one transaction around all inserts; every
inner `catch` rethrows, so any failing insert aborts (and rolls back) the
whole transaction; on success the story id is returned. -/
def saveStory (db : DB) (storyOption : StoryOption) (childProfileId : Str)
    (segments : List SavedStorySegment) : DB × Except DBError Str :=
  match runTransaction db (saveStoryRows storyOption childProfileId segments) with
  | (db2, .ok _) => (db2, .ok storyOption.id)
  | (db2, .error e) => (db2, .error e)

/-- The statements `DatabaseService.saveStorySegments` issues for one segment
(unlike `saveStory`, it inserts no choice-option rows). -/
def segRowsNoOpts (seg : SavedStorySegment) : List Row :=
  Row.segment (segmentRowOf seg) ::
    seg.choicePoints.mapIdx (fun i cp => Row.choicePoint (cpRowOf seg.id i cp))

/-- `DatabaseService.saveStorySegments`: one transaction inserting the given
segments and their choice points. -/
def saveStorySegments (db : DB) (segments : List SavedStorySegment) :
    DB × Except DBError Unit :=
  runTransaction db (segments.map segRowsNoOpts).flatten

/-- The `(parentSegmentId, choiceId)` pairs of the non-root segments. -/
def childPairs (segs : List SegmentRow) : List (Str × Option Str) :=
  segs.filterMap (fun s => s.parentSegmentId.map (fun p => (p, s.choiceId)))

/-- The branching invariant of the spec: no two segments share a
`(parentSegmentId, choiceId)` pair. -/
def branchingInvariant (db : DB) : Prop := (childPairs db.segments).Nodup

instance branchingInvariantDecidable (db : DB) : Decidable (branchingInvariant db) :=
  inferInstanceAs (Decidable (childPairs db.segments).Nodup)

/-! Projections of a statement sequence onto the four tables. -/

def projStory : Row → Option StoryRow
  | .story r => some r
  | .segment _ => none
  | .choicePoint _ => none
  | .choiceOption _ => none

def projSegment : Row → Option SegmentRow
  | .story _ => none
  | .segment r => some r
  | .choicePoint _ => none
  | .choiceOption _ => none

def projCP : Row → Option ChoicePointRow
  | .story _ => none
  | .segment _ => none
  | .choicePoint r => some r
  | .choiceOption _ => none

def projOpt : Row → Option ChoiceOptionRow
  | .story _ => none
  | .segment _ => none
  | .choicePoint _ => none
  | .choiceOption r => some r

/-- All choice-point rows `saveStory` inserts for the given segments. -/
def cpRowsOf (segments : List SavedStorySegment) : List ChoicePointRow :=
  (segments.map (fun s => s.choicePoints.mapIdx (fun i cp => cpRowOf s.id i cp))).flatten

/-- All choice-option rows `saveStory` inserts for the given segments. -/
def optRowsOf (segments : List SavedStorySegment) : List ChoiceOptionRow :=
  (segments.map (fun s =>
    (s.choicePoints.map (fun cp => cp.choices.mapIdx (fun j o => optRowOf cp.id j o))).flatten)).flatten

end StoryMagic

namespace StoryMagic

/-! ## Store scenarios -/

def storyRowS1 : StoryRow :=
  { id := "s1".toList, userId := "default_user".toList, childProfileId := "p1".toList,
    title := "Tale".toList, description := "Desc".toList, estimatedDuration := 10,
    energyLevel := .medium, contentTags := [], preview := "Prev".toList }

def rootSegRow : SegmentRow :=
  { id := "seg1".toList, storyId := "s1".toList, parentSegmentId := none,
    content := "Once upon a time".toList, choiceText := none, choiceId := none,
    segmentOrder := 0, hasChoices := true }

/-- A store holding one story with its root segment. -/
def db0 : DB :=
  { stories := [storyRowS1], segments := [rootSegRow], choicePoints := [], choiceOptions := [] }

/-- A child of `seg1` produced by choice `A`. -/
def segA : SavedStorySegment :=
  { id := "a".toList, storyId := "s1".toList, parentSegmentId := some "seg1".toList,
    content := "They went left".toList, choiceText := some "Go left".toList,
    choiceId := some "A".toList, segmentOrder := 1, hasChoices := false, choicePoints := [] }

/-- A *second* child of `seg1` for the same choice `A`, under a fresh row id. -/
def segB : SavedStorySegment :=
  { id := "b".toList, storyId := "s1".toList, parentSegmentId := some "seg1".toList,
    content := "They went left again".toList, choiceText := some "Go left".toList,
    choiceId := some "A".toList, segmentOrder := 2, hasChoices := false, choicePoints := [] }

/-- A child of `seg1` for the distinct choice `B`. -/
def segC : SavedStorySegment :=
  { id := "c".toList, storyId := "s1".toList, parentSegmentId := some "seg1".toList,
    content := "They went right".toList, choiceText := some "Go right".toList,
    choiceId := some "B".toList, segmentOrder := 1, hasChoices := false, choicePoints := [] }

end StoryMagic

namespace StoryMagic

/-! ## Concrete scenarios (profiles, environments and inputs used to evaluate
the definitions at specific points) -/

/-- A well-formed example profile. -/
def profEmma : ChildProfile :=
  { name := "Emma".toList, age := 6, favoriteAnimal := "unicorn".toList,
    favoriteColor := "purple".toList, bestFriend := [], currentInterest := [] }

/-- A 3-year-old profile (so the age word band is 60–240 words). -/
def profLiam : ChildProfile :=
  { name := "Liam".toList, age := 3, favoriteAnimal := "cat".toList,
    favoriteColor := "blue".toList, bestFriend := [], currentInterest := [] }

/-- A profile that is valid for the request schema (`favoriteAnimal` is any
1–30-character string) but whose favourite animal is itself a placeholder
token. -/
def profTokenAnimal : ChildProfile :=
  { name := "Emma".toList, age := 6, favoriteAnimal := childNameTok,
    favoriteColor := "purple".toList, bestFriend := [], currentInterest := [] }

/-- An environment in which every remote model call throws. -/
def orcAllFail : Orc := fun _ => .fail "network down".toList

/-- An environment in which the primary model throws and the others answer
`' hello '`. -/
def orcSecondHello : Orc := fun m =>
  if m = modelPrimary then .fail "p down".toList else .content (some " hello ".toList)

/-- 100 repetitions of `"sun "`: clean content of 101 `split(/\s+/)` words,
inside every word band that applies to a 3-year-old. -/
def sunContent : Str := (List.replicate 100 "sun ".toList).flatten

/-- A request environment in which every remote call (options and safety
prompts alike) throws. -/
def envAllFail : GenEnv :=
  { genOrc := orcAllFail, safetyOrc := fun _ => orcAllFail, now := "t0".toList }

/-- A request environment whose options call answers a response that parses
to a single option with a 3-character title and a 2-character description. -/
def envShortTitle : GenEnv :=
  { genOrc := fun _ => .content (some "1. Abc\nxy".toList),
    safetyOrc := fun _ => orcAllFail, now := "t0".toList }

/-- The option `envShortTitle`'s response parses to. -/
def shortTitleOption : StoryOption :=
  { id := "story_1_t0".toList, title := "Abc".toList, description := "xy".toList,
    estimatedDuration := 10, energyLevel := .medium, contentTags := ["adventure".toList],
    preview := "xy".toList }

/-- A request environment whose options call answers one well-formed option
(title length 5, description length 34). -/
def envGoodOption : GenEnv :=
  { genOrc := fun _ => .content (some "1. Abcde\na calm tale of stars and moonlight".toList),
    safetyOrc := fun _ => orcAllFail, now := "t0".toList }

/-- The option `envGoodOption`'s response parses to. -/
def goodOption : StoryOption :=
  { id := "story_1_t0".toList, title := "Abcde".toList,
    description := "a calm tale of stars and moonlight".toList,
    estimatedDuration := 10, energyLevel := .medium, contentTags := ["adventure".toList],
    preview := "a calm tale of stars and moonlight".toList }

end StoryMagic

namespace StoryMagic

/-! ### Basic lemmas about replacement and occurrence -/

theorem replaceAllAux_of_not_contains (pat rep : Str) :
    ∀ s : Str, containsSub pat s = false → replaceAllAux pat rep s 0 = s := by
  intro s
  induction s with
  | nil => intro _; rfl
  | cons c rest ih =>
    intro h
    have h' : (pat.isPrefixOf (c :: rest) || containsSub pat rest) = false := h
    rcases Bool.or_eq_false_iff.mp h' with ⟨h1, h2⟩
    show replaceAllAux pat rep (c :: rest) 0 = c :: rest
    rw [replaceAllAux]
    simp [h1, ih h2]

/-- If a string contains none of the placeholder tokens, substitution leaves
it unchanged (shared by the C8 and C10 developments). -/
theorem replacePlaceholders_id_of_no_tokens (s : Str) (p : ChildProfile)
    (h : hasPlaceholders s = false) : replacePlaceholders s p = s := by
  have h6 := h
  unfold hasPlaceholders at h6
  simp only [Bool.or_eq_false_iff] at h6
  obtain ⟨⟨⟨⟨⟨h1, h2⟩, h3⟩, h4⟩, h5'⟩, h6'⟩ := h6
  by_cases hb : p.bestFriend.isEmpty <;>
    by_cases hc : p.currentInterest.isEmpty <;>
      simp [replacePlaceholders, replaceAll, hb, hc,
        replaceAllAux_of_not_contains _ _ _ h1, replaceAllAux_of_not_contains _ _ _ h2,
        replaceAllAux_of_not_contains _ _ _ h3, replaceAllAux_of_not_contains _ _ _ h4,
        replaceAllAux_of_not_contains _ _ _ h5', replaceAllAux_of_not_contains _ _ _ h6']

/-- C10: if `hasPlaceholders` is false, `replacePlaceholders` is the
identity for every profile — the predicate exactly guards the substitution. -/
theorem hasPlaceholders_guards_replace (s : Str) (p : ChildProfile)
    (h : hasPlaceholders s = false) : replacePlaceholders s p = s :=
  replacePlaceholders_id_of_no_tokens s p h

/-- Witness for C10 at a concrete placeholder-free text and profile. -/
theorem hasPlaceholders_guards_replace_witness :
    hasPlaceholders "Good night little star".toList = false ∧
      replacePlaceholders "Good night little star".toList profEmma =
        "Good night little star".toList :=
  ⟨by decide, hasPlaceholders_guards_replace _ profEmma (by decide)⟩

/-- C8 counterexample: resolution is *not* idempotent for every text and
profile.  With `favoriteAnimal = "[CHILD_NAME]"` (a schema-valid value), the
text `"[FAVORITE_ANIMAL]"` resolves to `"[CHILD_NAME]"` in one pass and to
`"Emma"` in two. -/
theorem replacePlaceholders_not_idempotent :
    replacePlaceholders (replacePlaceholders favAnimalTok profTokenAnimal) profTokenAnimal ≠
      replacePlaceholders favAnimalTok profTokenAnimal := by decide

/-- C8 as amended: resolution is idempotent whenever one pass removes every
source token (the spec's own justification — "source tokens are gone"), i.e.
whenever the resolved text has no placeholders left. -/
theorem replacePlaceholders_idempotent_of_resolved (t : Str) (p : ChildProfile)
    (h : hasPlaceholders (replacePlaceholders t p) = false) :
    replacePlaceholders (replacePlaceholders t p) p = replacePlaceholders t p :=
  replacePlaceholders_id_of_no_tokens _ p h

/-- Witness for the amended C8 at a concrete text with a placeholder. -/
theorem replacePlaceholders_idempotent_of_resolved_witness :
    hasPlaceholders (replacePlaceholders (childNameTok ++ " sleeps".toList) profEmma) = false ∧
      replacePlaceholders (replacePlaceholders (childNameTok ++ " sleeps".toList) profEmma)
          profEmma =
        replacePlaceholders (childNameTok ++ " sleeps".toList) profEmma :=
  ⟨by decide, replacePlaceholders_idempotent_of_resolved _ profEmma (by decide)⟩

end StoryMagic

namespace StoryMagic

/-! ### C1: the combined safety result -/

/-- Natural division by 10 is the integer floor of rational division. -/
theorem floor_natCast_div_ten (n : ℕ) : ⌊((n : ℚ) / 10)⌋ = ((n / 10 : ℕ) : ℤ) := by
  rw [Int.floor_eq_iff]
  constructor
  · rw [le_div_iff₀ (by norm_num : (0 : ℚ) < 10)]
    exact_mod_cast Nat.div_mul_le_self n 10
  · rw [div_lt_iff₀ (by norm_num : (0 : ℚ) < 10)]
    exact_mod_cast (by omega : n < (n / 10 + 1) * 10)

/-- C1: the combined score is the half-up rounding of
`0.4·deterministic + 0.6·model`, and the combination is safe exactly when
both passes are safe and the combined score is at least 80. -/
theorem combineSafetyResults_spec (b a : SafetyCheckResult) :
    (((combineSafetyResults b a).score : ℤ) =
        round ((2 / 5 : ℚ) * b.score + (3 / 5 : ℚ) * a.score)) ∧
      ((combineSafetyResults b a).isSafe = true ↔
        b.isSafe = true ∧ a.isSafe = true ∧ 80 ≤ (combineSafetyResults b a).score) := by
  constructor
  · have hx : (2 / 5 : ℚ) * b.score + (3 / 5 : ℚ) * a.score + 1 / 2 =
        ((4 * b.score + 6 * a.score + 5 : ℕ) : ℚ) / 10 := by
      push_cast
      ring
    rw [round_eq, hx, floor_natCast_div_ten]
    rfl
  · simp [combineSafetyResults, Bool.and_eq_true, decide_eq_true_iff, and_assoc]

end StoryMagic

namespace StoryMagic

/-! ### C3: backend failure during the model-based safety pass -/

set_option maxRecDepth 40000 in
/-- C3 counterexample: with every tier down (fallback disabled, so the
orchestrator rethrows the primary tier's error), `checkContentSafety` on
clean 101-word content for a 3-year-old still reports `isSafe = true` —
the backend failure is swallowed by `performAISafetyCheck`'s `catch`
(`isSafe: true, score: 70`), not propagated. -/
theorem checkContentSafety_swallows_backend_failure :
    (generateCompletion orcAllFail false).1 = .error (.callFailed "network down".toList) ∧
      (checkContentSafety orcAllFail sunContent profLiam).isSafe = true := by decide

/-- C3 as amended: a failed orchestrator call during the model-based pass is
caught inside `performAISafetyCheck` and replaced by the permissive fallback
result (`isSafe: true`, score 70, no issues); `checkContentSafety` then
combines the deterministic pass with that fallback instead of failing. -/
theorem checkContentSafety_backend_failure_uses_fallback (orc : Orc) (content : Str)
    (p : ChildProfile) (e : GenError) (h : (generateCompletion orc false).1 = .error e) :
    checkContentSafety orc content p =
      combineSafetyResults (performBasicSafetyChecks content p.age) aiFallbackResult := by
  unfold checkContentSafety performAISafetyCheck
  rw [h]

/-- Witness for the amended C3 at the all-tiers-down environment. -/
theorem checkContentSafety_backend_failure_uses_fallback_witness :
    (generateCompletion orcAllFail false).1 = .error (.callFailed "network down".toList) ∧
      checkContentSafety orcAllFail "hi".toList profEmma =
        combineSafetyResults (performBasicSafetyChecks "hi".toList profEmma.age)
          aiFallbackResult :=
  ⟨by decide,
    checkContentSafety_backend_failure_uses_fallback orcAllFail "hi".toList profEmma
      (.callFailed "network down".toList) (by decide)⟩

end StoryMagic

namespace StoryMagic

/-! ### C2: ordered tier fallback in the orchestrator -/

/-- C2: `generateCompletion` consults the ranked tiers in order and at most
once each (the recorded attempt trace is always an initial run of
primary–secondary–tertiary); an errored call or missing/empty content fails
the tier; with `fallbackToPaid = false` only the primary tier runs and its
error is rethrown unchanged; one failure advances to the next tier; and when
every attempted tier fails the call fails with the single aggregated
`'All AI models are currently unavailable'` error. -/
theorem generateCompletion_tier_fallback_spec (orc : Orc) (fallbackToPaid : Bool) :
    (∀ m e, orc m = .fail e → tryModel orc m = .error (.callFailed e)) ∧
      (∀ m, orc m = .content none → tryModel orc m = .error (.noContent m)) ∧
      (∀ m, orc m = .content (some []) → tryModel orc m = .error (.noContent m)) ∧
      (fallbackToPaid = false →
        generateCompletion orc false = (tryModel orc modelPrimary, [modelPrimary])) ∧
      ((generateCompletion orc fallbackToPaid).2 = [modelPrimary] ∨
        (generateCompletion orc fallbackToPaid).2 = [modelPrimary, modelSecondary] ∨
        (generateCompletion orc fallbackToPaid).2 =
          [modelPrimary, modelSecondary, modelTertiary]) ∧
      (∀ s, tryModel orc modelPrimary = .ok s →
        generateCompletion orc fallbackToPaid = (.ok s, [modelPrimary])) ∧
      (∀ e s, tryModel orc modelPrimary = .error e → tryModel orc modelSecondary = .ok s →
        generateCompletion orc true = (.ok s, [modelPrimary, modelSecondary])) ∧
      (∀ e1 e2 s, tryModel orc modelPrimary = .error e1 →
        tryModel orc modelSecondary = .error e2 → tryModel orc modelTertiary = .ok s →
        generateCompletion orc true = (.ok s, [modelPrimary, modelSecondary, modelTertiary])) ∧
      (∀ e1 e2 e3, tryModel orc modelPrimary = .error e1 →
        tryModel orc modelSecondary = .error e2 → tryModel orc modelTertiary = .error e3 →
        generateCompletion orc true =
          (.error .allUnavailable, [modelPrimary, modelSecondary, modelTertiary])) := by
  refine ⟨?_, ?_, ?_, ?_, ?_, ?_, ?_, ?_, ?_⟩
  · intro m e h
    simp [tryModel, h]
  · intro m h
    simp [tryModel, h]
  · intro m h
    simp [tryModel, h, List.isEmpty]
  · intro h
    subst h
    rcases h1 : tryModel orc modelPrimary with e | s <;> simp [generateCompletion, h1]
  · rcases h1 : tryModel orc modelPrimary with e | s <;>
      rcases h2 : tryModel orc modelSecondary with e2 | s2 <;>
        rcases h3 : tryModel orc modelTertiary with e3 | s3 <;>
          rcases fallbackToPaid <;> simp [generateCompletion, h1, h2, h3]
  · intro s h1
    simp [generateCompletion, h1]
  · intro e s h1 h2
    simp [generateCompletion, h1, h2]
  · intro e1 e2 s h1 h2 h3
    simp [generateCompletion, h1, h2, h3]
  · intro e1 e2 e3 h1 h2 h3
    simp [generateCompletion, h1, h2, h3]

/-- Witness for C2: primary down, secondary answers `' hello '` — the call
succeeds with the trimmed secondary result after exactly one attempt per
tier. -/
theorem generateCompletion_tier_fallback_spec_witness :
    generateCompletion orcSecondHello true = (.ok "hello".toList, [modelPrimary, modelSecondary]) :=
  (generateCompletion_tier_fallback_spec orcSecondHello true).2.2.2.2.2.2.1
    (.callFailed "p down".toList) "hello".toList (by decide) (by decide)

end StoryMagic

namespace StoryMagic

/-! ### C9: monotonicity of the deterministic safety pass -/

theorem isPrefixOf_self (p : Str) : p.isPrefixOf p = true := by
  induction p with
  | nil => rfl
  | cons c rest ih => simp [List.isPrefixOf, ih]

theorem isPrefixOf_append_of (p : Str) :
    ∀ x y : Str, p.isPrefixOf x = true → p.isPrefixOf (x ++ y) = true := by
  induction p with
  | nil => intro x y _; simp [List.isPrefixOf]
  | cons c rest ih =>
    intro x y h
    cases x with
    | nil => simp [List.isPrefixOf] at h
    | cons d x' =>
      rw [List.cons_append]
      simp only [List.isPrefixOf, Bool.and_eq_true] at h ⊢
      exact ⟨h.1, ih _ _ h.2⟩

theorem containsSub_nil_pat : ∀ s : Str, containsSub [] s = true := by
  intro s
  cases s <;> simp [containsSub, List.isPrefixOf, List.isEmpty]

/-- An occurrence survives appending on the right. -/
theorem containsSub_append_left (p : Str) :
    ∀ a b : Str, containsSub p a = true → containsSub p (a ++ b) = true := by
  intro a
  induction a with
  | nil =>
    intro b h
    cases p with
    | nil => exact containsSub_nil_pat b
    | cons c r => simp [containsSub, List.isEmpty] at h
  | cons c rest ih =>
    intro b h
    rw [containsSub] at h
    show containsSub p (c :: (rest ++ b)) = true
    rw [containsSub]
    rcases (Bool.or_eq_true _ _).mp h with hp | hc
    · have := isPrefixOf_append_of p (c :: rest) b hp
      simp only [List.cons_append] at this
      simp [this]
    · simp [ih b hc]

/-- A string occurs in anything that ends with it. -/
theorem containsSub_append_self (p : Str) : ∀ a : Str, containsSub p (a ++ p) = true := by
  intro a
  induction a with
  | nil =>
    cases p with
    | nil => simp [containsSub, List.isEmpty]
    | cons c r =>
      show containsSub (c :: r) ([] ++ c :: r) = true
      rw [List.nil_append, containsSub]
      simp [isPrefixOf_self]
  | cons c rest ih =>
    show containsSub p (c :: (rest ++ p)) = true
    rw [containsSub]
    simp [ih]

/-- Keeping at least one *new* element strictly grows a filter: if `g`
dominates `f` and some member satisfies `g` but not `f`, the `g`-filter is
strictly longer. -/
theorem filter_length_succ_le {α : Type} (f g : α → Bool)
    (hmono : ∀ x, f x = true → g x = true) :
    ∀ (L : List α) (w : α), w ∈ L → g w = true → f w = false →
      (L.filter f).length + 1 ≤ (L.filter g).length := by
  intro L
  induction L with
  | nil => intro w hw; cases hw
  | cons x L' ih =>
    intro w hw hg hf
    rcases List.mem_cons.mp hw with rfl | hw'
    · have hsub := (List.monotone_filter_right L' hmono).length_le
      simp [List.filter_cons, hf, hg]
      omega
    · have := ih w hw' hg hf
      by_cases hfx : f x = true
      · simp [List.filter_cons, hfx, hmono x hfx]
        omega
      · rw [Bool.not_eq_true] at hfx
        by_cases hgx : g x = true
        · simp [List.filter_cons, hfx, hgx]
          omega
        · rw [Bool.not_eq_true] at hgx
          simp [List.filter_cons, hfx, hgx]
          omega

theorem wsRunsAux_le_append (b : Str) :
    ∀ (a : Str) (p : Bool), wsRunsAux p a ≤ wsRunsAux p (a ++ b) := by
  intro a
  induction a with
  | nil => intro p; exact Nat.zero_le _
  | cons c rest ih =>
    intro p
    show wsRunsAux p (c :: rest) ≤ wsRunsAux p (c :: (rest ++ b))
    simp only [wsRunsAux]
    have := ih (isWs c)
    by_cases h : (isWs c && !p) = true <;> simp [h] <;> omega

/-- The `split(/\s+/)` word count never drops when text is appended. -/
theorem wordCount_le_append (a b : Str) : wordCount a ≤ wordCount (a ++ b) := by
  have := wsRunsAux_le_append b a false
  unfold wordCount
  omega

/-- Every word of the deterministic block list is already lowercase. -/
theorem dangerousWords_lower : ∀ w ∈ dangerousWords, toLowerStr w = w := by decide

theorem validateContentForAge_length (content : Str) (age : Nat) :
    (validateContentForAge content age).length =
      (if (inappropriateWords.filter
            (fun w => containsSub w (toLowerStr content))).isEmpty then 0 else 1) +
        ((if wordCount content < 20 * age then 1 else 0) +
          (if wordCount content > 80 * age then 1 else 0)) := by
  simp only [validateContentForAge]
  split_ifs <;> simp

/-- The deterministic score as a closed arithmetic expression. -/
theorem performBasicSafetyChecks_score (content : Str) (age : Nat) :
    (performBasicSafetyChecks content age).score =
      (max 0 (min 100 (100 -
        20 * ((dangerousWords.filter
          (fun v => containsSub v (toLowerStr content))).length : Int) -
        15 * ((validateContentForAge content age).length : Int)))).toNat := rfl

/-- C9 counterexample: inserting the blocked word `kill` into the text `war`
(between positions 2 and 3, giving `wakillr`) *raises* the deterministic
score for age 3 — the insertion destroys the `war` occurrence that
`validateContentForAge` was penalising, so an age-validation error
disappears. -/
theorem basicScore_increases_on_insertion :
    "kill".toList ∈ dangerousWords ∧
      (performBasicSafetyChecks ("wa".toList ++ "kill".toList ++ "r".toList) 3).score >
        (performBasicSafetyChecks ("wa".toList ++ "r".toList) 3).score := by decide

/-- C9 as amended: *appending* (after a space) a blocked word that does not
already occur in the text never increases the deterministic score — existing
occurrences survive an append, the new word strictly grows the dangerous-word
penalty, and the only error that can disappear (the too-short band) is worth
less than the new penalty. -/
theorem basicScore_monotone_append_blocked (content : Str) (age : Nat) (w : Str)
    (hw : w ∈ dangerousWords) (hnew : containsSub w (toLowerStr content) = false) :
    (performBasicSafetyChecks (content ++ ' ' :: w) age).score ≤
      (performBasicSafetyChecks content age).score := by
  have hwlow : toLowerStr w = w := dangerousWords_lower w hw
  have hlow : toLowerStr (content ++ ' ' :: w) = toLowerStr content ++ ' ' :: w := by
    simp only [toLowerStr, List.map_append, List.map_cons]
    rw [show Char.toLower ' ' = ' ' by decide]
    rw [show List.map Char.toLower w = w from hwlow]
  -- the dangerous-word count grows strictly
  have hmono : ∀ v, containsSub v (toLowerStr content) = true →
      containsSub v (toLowerStr (content ++ ' ' :: w)) = true := by
    intro v hv
    rw [hlow]
    exact containsSub_append_left v _ (' ' :: w) hv
  have hgw : containsSub w (toLowerStr (content ++ ' ' :: w)) = true := by
    rw [hlow, List.append_cons]
    exact containsSub_append_self w (toLowerStr content ++ [' '])
  have hD : (dangerousWords.filter (fun v => containsSub v (toLowerStr content))).length + 1 ≤
      (dangerousWords.filter
        (fun v => containsSub v (toLowerStr (content ++ ' ' :: w)))).length :=
    filter_length_succ_le _ _ hmono dangerousWords w hw hgw hnew
  -- the age-validation error count drops by at most one
  have hwc : wordCount content ≤ wordCount (content ++ ' ' :: w) :=
    wordCount_le_append content (' ' :: w)
  have hfound : (inappropriateWords.filter
        (fun v => containsSub v (toLowerStr content))).length ≤
      (inappropriateWords.filter
        (fun v => containsSub v (toLowerStr (content ++ ' ' :: w)))).length :=
    (List.monotone_filter_right inappropriateWords hmono).length_le
  have hE : (validateContentForAge content age).length ≤
      (validateContentForAge (content ++ ' ' :: w) age).length + 1 := by
    rw [validateContentForAge_length, validateContentForAge_length]
    simp only [List.isEmpty_iff_length_eq_zero]
    split_ifs <;> omega
  rw [performBasicSafetyChecks_score, performBasicSafetyChecks_score]
  exact Int.toNat_le_toNat (max_le_max (le_refl 0) (min_le_min (le_refl 100) (by omega)))

/-- Witness for the amended C9 at concrete clean text and the blocked word
`kill`. -/
theorem basicScore_monotone_append_blocked_witness :
    "kill".toList ∈ dangerousWords ∧
      containsSub "kill".toList (toLowerStr "hello there".toList) = false ∧
      (performBasicSafetyChecks ("hello there".toList ++ ' ' :: "kill".toList) 3).score ≤
        (performBasicSafetyChecks "hello there".toList 3).score :=
  ⟨by decide, by decide,
    basicScore_monotone_append_blocked "hello there".toList 3 "kill".toList
      (by decide) (by decide)⟩

end StoryMagic

namespace StoryMagic

/-! ### C4 and C5: story option generation -/

/-- A successful parse yields between 1 and `count` options. -/
theorem parseStoryOptionsResponse_ok_bounds (now resp : Str) (count : Nat)
    (stories : List StoryOption)
    (h : parseStoryOptionsResponse now resp count = .ok stories) :
    1 ≤ stories.length ∧ stories.length ≤ count := by
  unfold parseStoryOptionsResponse at h
  by_cases hempty :
      ((((splitMatches optionMarkerLen resp).filter
        (fun b => !(trimStr b).isEmpty)).take count).mapIdx (fun i b =>
          { parseStoryOptionBlock (trimStr b) with
              id := "story_".toList ++ (toString (i + 1)).toList ++ "_".toList ++ now })).isEmpty
  · simp only [hempty, if_true] at h
    cases h
  · simp only [hempty, if_false, Bool.false_eq_true] at h
    have hs : stories =
        (((splitMatches optionMarkerLen resp).filter
          (fun b => !(trimStr b).isEmpty)).take count).mapIdx (fun i b =>
            { parseStoryOptionBlock (trimStr b) with
                id := "story_".toList ++ (toString (i + 1)).toList ++ "_".toList ++ now }) := by
      cases h
      rfl
    have hlen := hs ▸ List.length_mapIdx (l := ((splitMatches optionMarkerLen resp).filter
      (fun b => !(trimStr b).isEmpty)).take count) ..
    constructor
    · have : stories ≠ [] := by
        intro hnil
        rw [hnil] at hs
        exact hempty (by rw [← hs]; rfl)
      cases stories with
      | nil => exact absurd rfl this
      | cons a l => simp
    · rw [hlen]
      exact List.length_take_le count _

/-- A non-empty input list survives `validateStoryOptions` (either the filter
kept something, or the first parsed option is returned). -/
theorem validateStoryOptions_ne_nil (ck : Str → SafetyCheckResult)
    (stories : List StoryOption) (h : stories ≠ []) :
    validateStoryOptions ck stories ≠ [] := by
  unfold validateStoryOptions
  by_cases hf : (stories.filter (optionPasses ck)).isEmpty
  · simp only [hf, if_true]
    cases stories with
    | nil => exact absurd rfl h
    | cons a l => simp
  · simp only [hf, if_false, Bool.false_eq_true]
    intro hnil
    rw [List.isEmpty_iff] at hf
    exact hf hnil

/-- C5: a model response from which zero options parse fails the whole
`generateStoryOptions` call, an exhausted backend fails it too, and a
successful call never returns an empty option list. -/
theorem generateStoryOptions_never_empty_success (env : GenEnv) (profile : ChildProfile)
    (count : Nat) :
    (∀ l, generateStoryOptions env profile count = .ok l → l ≠ []) ∧
      (∀ e, (generateCompletion env.genOrc true).1 = .error e →
        generateStoryOptions env profile count = .error .unavailable) ∧
      (∀ resp, (generateCompletion env.genOrc true).1 = .ok resp →
        parseStoryOptionsResponse env.now resp count = .error .parseFailed →
        generateStoryOptions env profile count = .error .unavailable) := by
  refine ⟨?_, ?_, ?_⟩
  · intro l hl
    unfold generateStoryOptions at hl
    rcases hg : (generateCompletion env.genOrc true).1 with e | resp
    · rw [hg] at hl
      exact Except.noConfusion hl
    · rw [hg] at hl
      dsimp only at hl
      rcases hp : parseStoryOptionsResponse env.now resp count with e | stories
      · rw [hp] at hl
        exact Except.noConfusion hl
      · rw [hp] at hl
        dsimp only at hl
        have hne : stories ≠ [] := by
          have := (parseStoryOptionsResponse_ok_bounds env.now resp count stories hp).1
          intro hnil
          rw [hnil] at this
          simp at this
        cases hl
        exact validateStoryOptions_ne_nil _ stories hne
  · intro e he
    unfold generateStoryOptions
    rw [he]
  · intro resp hr hp
    unfold generateStoryOptions
    rw [hr]
    dsimp only
    rw [hp]

/-- Witness for C5: with every backend tier down, the call fails with the
user-facing unavailability error. -/
theorem generateStoryOptions_never_empty_success_witness :
    generateStoryOptions envAllFail profEmma 3 = .error .unavailable :=
  (generateStoryOptions_never_empty_success envAllFail profEmma 3).2.1
    .allUnavailable (by decide)

/-- C4 counterexample: a successful `generateStoryOptions` call *can* return
an option violating the minimums.  When every parsed option fails validation,
`validateStoryOptions` returns `stories.slice(0, 1)` — here a single option
with a 3-character title and 2-character description. -/
theorem generateStoryOptions_returns_short_title_option :
    generateStoryOptions envShortTitle profEmma 3 = .ok [shortTitleOption] ∧
      shortTitleOption.title.length < 5 ∧ shortTitleOption.description.length < 20 := by decide

/-- C4 as amended: a successful call returns between 1 and `count` options,
and either every returned option meets the title ≥ 5 / description ≥ 20
minimums (options failing them are dropped, not repaired), or *no* parsed
option passed validation and the single first parsed option is returned
as-is by the `stories.slice(0, 1)` fallback. -/
theorem generateStoryOptions_bounds_and_minimums (env : GenEnv) (profile : ChildProfile)
    (count : Nat) (l : List StoryOption)
    (h : generateStoryOptions env profile count = .ok l) :
    (1 ≤ l.length ∧ l.length ≤ count) ∧
      ((∀ o ∈ l, 5 ≤ o.title.length ∧ 20 ≤ o.description.length) ∨
        (∃ resp stories, (generateCompletion env.genOrc true).1 = .ok resp ∧
          parseStoryOptionsResponse env.now resp count = .ok stories ∧
          (∀ o ∈ stories,
            optionPasses (fun d => checkContentSafety (env.safetyOrc d) d profile) o = false) ∧
          l = stories.take 1)) := by
  unfold generateStoryOptions at h
  rcases hg : (generateCompletion env.genOrc true).1 with e | resp
  · rw [hg] at h
    exact Except.noConfusion h
  · rw [hg] at h
    dsimp only at h
    rcases hp : parseStoryOptionsResponse env.now resp count with e | stories
    · rw [hp] at h
      exact Except.noConfusion h
    · rw [hp] at h
      dsimp only at h
      have hb := parseStoryOptionsResponse_ok_bounds env.now resp count stories hp
      have hl : l = validateStoryOptions
          (fun d => checkContentSafety (env.safetyOrc d) d profile) stories := by
        cases h
        rfl
      unfold validateStoryOptions at hl
      dsimp only at hl
      by_cases hf : (stories.filter
          (optionPasses (fun d => checkContentSafety (env.safetyOrc d) d profile))).isEmpty
      · simp only [hf, if_true] at hl
        constructor
        · have h1 : stories ≠ [] := by
            intro hnil
            rw [hnil] at hb
            simp at hb
          cases stories with
          | nil => exact absurd rfl h1
          | cons a t =>
            constructor
            · rw [hl]
              simp
            · rw [hl]
              have h2 : (List.take 1 (a :: t)).length = 1 := by simp
              have h4 := hb.2
              have h5 : (a :: t).length = t.length + 1 := rfl
              omega
        · right
          refine ⟨resp, stories, rfl, hp, ?_, hl⟩
          intro o ho
          rw [List.isEmpty_iff, List.filter_eq_nil_iff] at hf
          have := hf o ho
          simp only [Bool.not_eq_true] at this
          exact this
      · rw [Bool.not_eq_true] at hf
        simp only [hf, Bool.false_eq_true, if_false] at hl
        constructor
        · constructor
          · have : l ≠ [] := by
              intro hnil
              rw [hnil] at hl
              rw [← hl] at hf
              simp at hf
            cases l with
            | nil => exact absurd rfl this
            | cons a t => simp
          · rw [hl]
            calc (stories.filter _).length ≤ stories.length := List.length_filter_le _ _
              _ ≤ count := hb.2
        · left
          intro o ho
          rw [hl] at ho
          have hmem := List.of_mem_filter ho
          simp only [optionPasses, Bool.and_eq_true, decide_eq_true_eq] at hmem
          exact ⟨hmem.1.1, hmem.1.2⟩

/-! ### C6 and C7: the branching story store -/

theorem filterMap_mapIdx_none {α β γ : Type} (l : List α) :
    ∀ (g : Nat → α → β) (f : β → Option γ), (∀ i a, f (g i a) = none) →
      (l.mapIdx g).filterMap f = [] := by
  induction l with
  | nil => intro g f _; rfl
  | cons a t ih =>
    intro g f hfg
    rw [List.mapIdx_cons, List.filterMap_cons, hfg 0 a]
    exact ih _ f (fun i b => hfg (i + 1) b)

theorem filterMap_mapIdx_some {α β γ : Type} (l : List α) :
    ∀ (g : Nat → α → β) (f : β → Option γ) (h : Nat → α → γ),
      (∀ i a, f (g i a) = some (h i a)) → (l.mapIdx g).filterMap f = l.mapIdx h := by
  induction l with
  | nil => intro g f h _; rfl
  | cons a t ih =>
    intro g f h hfg
    rw [List.mapIdx_cons, List.mapIdx_cons, List.filterMap_cons, hfg 0 a]
    rw [ih _ f _ (fun i b => hfg (i + 1) b)]

theorem map_mapIdx {α β γ : Type} (l : List α) :
    ∀ (g : Nat → α → β) (f : β → γ), (l.mapIdx g).map f = l.mapIdx (fun i a => f (g i a)) := by
  induction l with
  | nil => intro g f; rfl
  | cons a t ih =>
    intro g f
    rw [List.mapIdx_cons, List.map_cons, List.mapIdx_cons, ih]

theorem flatten_mapIdx_singleton {α β : Type} (l : List α) :
    ∀ h : Nat → α → β, (l.mapIdx (fun i a => [h i a])).flatten = l.mapIdx h := by
  induction l with
  | nil => intro h; rfl
  | cons a t ih =>
    intro h
    rw [List.mapIdx_cons, List.mapIdx_cons, List.flatten_cons, List.singleton_append, ih]

theorem flatten_map_nil {α β : Type} (l : List α) :
    (l.map (fun _ => ([] : List β))).flatten = [] := by
  induction l with
  | nil => rfl
  | cons a t ih => rw [List.map_cons, List.flatten_cons, List.nil_append, ih]

theorem flatten_map_singleton {α β : Type} (l : List α) (f : α → β) :
    (l.map (fun a => [f a])).flatten = l.map f := by
  induction l with
  | nil => rfl
  | cons a t ih => rw [List.map_cons, List.flatten_cons, List.singleton_append, ih, List.map_cons]

theorem cpRows_filterMap_story (segId : Str) (i : Nat) (cp : ChoicePoint) :
    (cpRows segId i cp).filterMap projStory = [] := by
  rw [cpRows, List.filterMap_cons]
  simp only [projStory]
  exact filterMap_mapIdx_none _ _ _ (fun j o => rfl)

theorem cpRows_filterMap_segment (segId : Str) (i : Nat) (cp : ChoicePoint) :
    (cpRows segId i cp).filterMap projSegment = [] := by
  rw [cpRows, List.filterMap_cons]
  simp only [projSegment]
  exact filterMap_mapIdx_none _ _ _ (fun j o => rfl)

theorem cpRows_filterMap_cp (segId : Str) (i : Nat) (cp : ChoicePoint) :
    (cpRows segId i cp).filterMap projCP = [cpRowOf segId i cp] := by
  rw [cpRows, List.filterMap_cons]
  simp only [projCP]
  rw [filterMap_mapIdx_none _ _ _ (fun j o => rfl)]

theorem cpRows_filterMap_opt (segId : Str) (i : Nat) (cp : ChoicePoint) :
    (cpRows segId i cp).filterMap projOpt = cp.choices.mapIdx (fun j o => optRowOf cp.id j o) := by
  rw [cpRows, List.filterMap_cons]
  simp only [projOpt]
  exact filterMap_mapIdx_some _ _ _ _ (fun j o => rfl)

theorem segRows_filterMap_story (seg : SavedStorySegment) :
    (segRows seg).filterMap projStory = [] := by
  rw [segRows, List.filterMap_cons]
  simp only [projStory]
  rw [List.filterMap_flatten, map_mapIdx]
  simp only [cpRows_filterMap_story]
  have := flatten_mapIdx_singleton (β := List StoryRow) seg.choicePoints
  rw [show (fun (i : Nat) (cp : ChoicePoint) => ([] : List StoryRow)) =
      (fun (_ : Nat) (_ : ChoicePoint) => ([] : List StoryRow)) from rfl]
  induction seg.choicePoints with
  | nil => rfl
  | cons a t ih =>
    rw [List.mapIdx_cons, List.flatten_cons, List.nil_append]
    exact ih

theorem segRows_filterMap_segment (seg : SavedStorySegment) :
    (segRows seg).filterMap projSegment = [segmentRowOf seg] := by
  rw [segRows, List.filterMap_cons]
  simp only [projSegment]
  rw [List.filterMap_flatten, map_mapIdx]
  simp only [cpRows_filterMap_segment]
  induction seg.choicePoints with
  | nil => rfl
  | cons a t ih =>
    rw [List.mapIdx_cons, List.flatten_cons, List.nil_append] at *
    exact ih

theorem segRows_filterMap_cp (seg : SavedStorySegment) :
    (segRows seg).filterMap projCP = seg.choicePoints.mapIdx (fun i cp => cpRowOf seg.id i cp) := by
  rw [segRows, List.filterMap_cons]
  simp only [projCP]
  rw [List.filterMap_flatten, map_mapIdx]
  simp only [cpRows_filterMap_cp]
  exact flatten_mapIdx_singleton _ _

theorem segRows_filterMap_opt (seg : SavedStorySegment) :
    (segRows seg).filterMap projOpt =
      (seg.choicePoints.map (fun cp => cp.choices.mapIdx (fun j o => optRowOf cp.id j o))).flatten := by
  rw [segRows, List.filterMap_cons]
  simp only [projOpt]
  rw [List.filterMap_flatten, map_mapIdx]
  simp only [cpRows_filterMap_opt]
  congr 1
  induction seg.choicePoints with
  | nil => rfl
  | cons a t ih =>
    rw [List.mapIdx_cons, List.map_cons]
    congr 1

/-- Success of the raw statement sequence appends exactly its rows, table by
table. -/
theorem runInsertsPartial_ok (rows : List Row) :
    ∀ db db2 : DB, runInsertsPartial db rows = (db2, none) →
      db2.stories = db.stories ++ rows.filterMap projStory ∧
        db2.segments = db.segments ++ rows.filterMap projSegment ∧
        db2.choicePoints = db.choicePoints ++ rows.filterMap projCP ∧
        db2.choiceOptions = db.choiceOptions ++ rows.filterMap projOpt := by
  induction rows with
  | nil =>
    intro db db2 h
    rw [runInsertsPartial] at h
    cases h
    simp
  | cons r rs ih =>
    intro db db2 h
    rw [runInsertsPartial] at h
    rcases hi : insertRow db r with e | dbx
    · rw [hi] at h
      dsimp only at h
      cases h
    · rw [hi] at h
      dsimp only at h
      have hx := ih dbx db2 h
      cases r with
      | story rr =>
        unfold insertRow at hi
        dsimp only at hi
        split_ifs at hi
        cases hi
        simp only [projStory, projSegment, projCP, projOpt, List.filterMap_cons] at *
        refine ⟨?_, ?_, ?_, ?_⟩ <;> simp [hx.1, hx.2.1, hx.2.2.1, hx.2.2.2]
      | segment rr =>
        unfold insertRow at hi
        dsimp only at hi
        split_ifs at hi
        cases hi
        simp only [projStory, projSegment, projCP, projOpt, List.filterMap_cons] at *
        refine ⟨?_, ?_, ?_, ?_⟩ <;> simp [hx.1, hx.2.1, hx.2.2.1, hx.2.2.2]
      | choicePoint rr =>
        unfold insertRow at hi
        dsimp only at hi
        split_ifs at hi
        cases hi
        simp only [projStory, projSegment, projCP, projOpt, List.filterMap_cons] at *
        refine ⟨?_, ?_, ?_, ?_⟩ <;> simp [hx.1, hx.2.1, hx.2.2.1, hx.2.2.2]
      | choiceOption rr =>
        unfold insertRow at hi
        dsimp only at hi
        split_ifs at hi
        cases hi
        simp only [projStory, projSegment, projCP, projOpt, List.filterMap_cons] at *
        refine ⟨?_, ?_, ?_, ?_⟩ <;> simp [hx.1, hx.2.1, hx.2.2.1, hx.2.2.2]

theorem saveStoryRows_filterMap_story (storyOption : StoryOption) (cpid : Str)
    (segments : List SavedStorySegment) :
    (saveStoryRows storyOption cpid segments).filterMap projStory =
      [storyRowOf storyOption cpid] := by
  rw [saveStoryRows, List.filterMap_cons]
  simp only [projStory]
  rw [List.filterMap_flatten, List.map_map]
  have : (List.filterMap projStory ∘ segRows) = fun s => ([] : List StoryRow) := by
    funext s
    exact segRows_filterMap_story s
  rw [this, flatten_map_nil]

theorem saveStoryRows_filterMap_segment (storyOption : StoryOption) (cpid : Str)
    (segments : List SavedStorySegment) :
    (saveStoryRows storyOption cpid segments).filterMap projSegment =
      segments.map segmentRowOf := by
  rw [saveStoryRows, List.filterMap_cons]
  simp only [projSegment]
  rw [List.filterMap_flatten, List.map_map]
  have : (List.filterMap projSegment ∘ segRows) = fun s => [segmentRowOf s] := by
    funext s
    exact segRows_filterMap_segment s
  rw [this, flatten_map_singleton]

theorem saveStoryRows_filterMap_cp (storyOption : StoryOption) (cpid : Str)
    (segments : List SavedStorySegment) :
    (saveStoryRows storyOption cpid segments).filterMap projCP = cpRowsOf segments := by
  rw [saveStoryRows, List.filterMap_cons]
  simp only [projCP]
  rw [List.filterMap_flatten, List.map_map]
  have : (List.filterMap projCP ∘ segRows) =
      fun s => s.choicePoints.mapIdx (fun i cp => cpRowOf s.id i cp) := by
    funext s
    exact segRows_filterMap_cp s
  rw [this]
  rfl

theorem saveStoryRows_filterMap_opt (storyOption : StoryOption) (cpid : Str)
    (segments : List SavedStorySegment) :
    (saveStoryRows storyOption cpid segments).filterMap projOpt = optRowsOf segments := by
  rw [saveStoryRows, List.filterMap_cons]
  simp only [projOpt]
  rw [List.filterMap_flatten, List.map_map]
  have : (List.filterMap projOpt ∘ segRows) = fun s =>
      (s.choicePoints.map (fun cp => cp.choices.mapIdx (fun j o => optRowOf cp.id j o))).flatten := by
    funext s
    exact segRows_filterMap_opt s
  rw [this]
  rfl

/-- C6: `saveStory` is atomic.  Either it fails and the committed state is
exactly the input state (the transaction rolled back, whatever partial
progress the failing statement sequence had made), or it succeeds returning
the story id and the committed state is the input state plus exactly the
story row, every segment row, every choice-point row and every choice-option
row of the unit. -/
theorem saveStory_atomic (db : DB) (storyOption : StoryOption) (childProfileId : Str)
    (segments : List SavedStorySegment) :
    (∃ e, saveStory db storyOption childProfileId segments = (db, .error e)) ∨
      ((saveStory db storyOption childProfileId segments).2 = .ok storyOption.id ∧
        (saveStory db storyOption childProfileId segments).1.stories =
          db.stories ++ [storyRowOf storyOption childProfileId] ∧
        (saveStory db storyOption childProfileId segments).1.segments =
          db.segments ++ segments.map segmentRowOf ∧
        (saveStory db storyOption childProfileId segments).1.choicePoints =
          db.choicePoints ++ cpRowsOf segments ∧
        (saveStory db storyOption childProfileId segments).1.choiceOptions =
          db.choiceOptions ++ optRowsOf segments) := by
  rcases hr : runInsertsPartial db (saveStoryRows storyOption childProfileId segments)
    with ⟨db2, oe⟩
  cases oe with
  | none =>
    right
    have hshape := runInsertsPartial_ok _ db db2 hr
    have hsave : saveStory db storyOption childProfileId segments = (db2, .ok storyOption.id) := by
      unfold saveStory runTransaction
      rw [hr]
    rw [hsave]
    rw [saveStoryRows_filterMap_story, saveStoryRows_filterMap_segment,
      saveStoryRows_filterMap_cp, saveStoryRows_filterMap_opt] at hshape
    exact ⟨rfl, hshape.1, hshape.2.1, hshape.2.2.1, hshape.2.2.2⟩
  | some e =>
    left
    refine ⟨e, ?_⟩
    unfold saveStory runTransaction
    rw [hr]

/-- Success shape of `saveStorySegments`: the committed segments table is the
old one plus exactly the appended segments' rows. -/
theorem segRowsNoOpts_filterMap_segment (seg : SavedStorySegment) :
    (segRowsNoOpts seg).filterMap projSegment = [segmentRowOf seg] := by
  rw [segRowsNoOpts, List.filterMap_cons]
  simp only [projSegment]
  rw [filterMap_mapIdx_none _ _ _ (fun i cp => rfl)]

theorem saveStorySegments_ok_segments (db : DB) (segs : List SavedStorySegment) (db2 : DB)
    (h : saveStorySegments db segs = (db2, .ok ())) :
    db2.segments = db.segments ++ segs.map segmentRowOf := by
  have hshape : ∀ dbx : DB,
      runInsertsPartial db (segs.map segRowsNoOpts).flatten = (dbx, none) →
      dbx.segments = db.segments ++ segs.map segmentRowOf := by
    intro dbx hr
    have hs := (runInsertsPartial_ok _ db dbx hr).2.1
    rw [List.filterMap_flatten, List.map_map] at hs
    have hfn : (List.filterMap projSegment ∘ segRowsNoOpts) = fun s => [segmentRowOf s] := by
      funext s
      exact segRowsNoOpts_filterMap_segment s
    rw [hfn, flatten_map_singleton] at hs
    exact hs
  unfold saveStorySegments runTransaction at h
  rcases hr : runInsertsPartial db (segs.map segRowsNoOpts).flatten with ⟨dbx, oe⟩
  rw [hr] at h
  cases oe with
  | none =>
    dsimp only at h
    have hd : dbx = db2 := congrArg Prod.fst h
    rw [← hd]
    exact hshape dbx hr
  | some e =>
    dsimp only at h
    exact absurd (congrArg Prod.snd h) (by simp)

/-- C7 counterexample: the store enforces no uniqueness on
`(parentSegmentId, choiceId)`.  Starting from a store satisfying the
branching invariant, appending two segments that both answer choice `A` of
the same parent succeeds, and the invariant no longer holds. -/
theorem saveStorySegments_duplicate_choice_pair :
    branchingInvariant db0 ∧
      (saveStorySegments db0 [segA, segB]).2 = .ok () ∧
      ¬ branchingInvariant (saveStorySegments db0 [segA, segB]).1 := by
  refine ⟨?_, by decide, ?_⟩ <;> · unfold branchingInvariant; decide

/-- C7 as amended: the store preserves the branching invariant only when the
appended batch itself respects it — the new segments' `(parent, choice)`
pairs are pairwise distinct and none is already present.  (Nothing in the
store checks this; it is a caller obligation.) -/
theorem saveStorySegments_preserves_invariant_of_fresh (db : DB)
    (segs : List SavedStorySegment) (db2 : DB) (hinv : branchingInvariant db)
    (hnodup : (childPairs (segs.map segmentRowOf)).Nodup)
    (hdisj : ∀ p ∈ childPairs (segs.map segmentRowOf), p ∉ childPairs db.segments)
    (h : saveStorySegments db segs = (db2, .ok ())) : branchingInvariant db2 := by
  have hseg := saveStorySegments_ok_segments db segs db2 h
  unfold branchingInvariant
  rw [hseg]
  unfold childPairs
  rw [List.filterMap_append]
  rw [List.nodup_append]
  exact ⟨hinv, hnodup, fun p hp hq => hdisj p hq hp⟩

/-- Witness for the amended C7: appending the fresh choice-`B` child keeps
the invariant. -/
theorem saveStorySegments_preserves_invariant_of_fresh_witness :
    branchingInvariant (saveStorySegments db0 [segC]).1 :=
  saveStorySegments_preserves_invariant_of_fresh db0 [segC]
    (saveStorySegments db0 [segC]).1 (by decide) (by decide) (by decide) (by decide)

/-- Witness for the amended C4: a well-formed response yields exactly one
option that meets both minimums. -/
theorem generateStoryOptions_bounds_and_minimums_witness :
    (1 ≤ ([goodOption] : List StoryOption).length ∧
        ([goodOption] : List StoryOption).length ≤ 3) ∧
      ((∀ o ∈ ([goodOption] : List StoryOption),
          5 ≤ o.title.length ∧ 20 ≤ o.description.length) ∨
        (∃ resp stories, (generateCompletion envGoodOption.genOrc true).1 = .ok resp ∧
          parseStoryOptionsResponse envGoodOption.now resp 3 = .ok stories ∧
          (∀ o ∈ stories,
            optionPasses
              (fun d => checkContentSafety (envGoodOption.safetyOrc d) d profEmma) o = false) ∧
          ([goodOption] : List StoryOption) = stories.take 1)) :=
  generateStoryOptions_bounds_and_minimums envGoodOption profEmma 3 [goodOption] (by decide)

end StoryMagic
